import Mathlib

/-!
Shallow embedding of the worktree-TUI core (data aggregation, disk cache,
refresh reconciliation, view index layer) translated from the Rust sources
in src/src/main.rs, src/src/cache.rs, src/impl_app.rs and src/fetch_final.rs,
together with theorems settling the frozen claims about it.

Filesystem paths are modelled as strings; machine integers (usize, u64, i64)
as Nat or Int; fallible operations as Option or Except.
-/

namespace WorktreeTui

/-- Mirrors struct WorktreeStatus in src/src/main.rs: aggregate counts of
modified, staged, untracked entries and the ahead and behind commit counts. -/
structure WorktreeStatus where
  modified : Nat
  staged : Nat
  untracked : Nat
  ahead : Nat
  behind : Nat
deriving DecidableEq, Repr

/-- WorktreeStatus::default() is all-zero counts. -/
instance : Inhabited WorktreeStatus := ⟨⟨0, 0, 0, 0, 0⟩⟩

/-- Mirrors WorktreeStatus::is_clean. -/
def WorktreeStatus.is_clean (s : WorktreeStatus) : Bool :=
  s.modified == 0 && s.staged == 0 && s.untracked == 0

/-- Mirrors struct CommitInfo in src/src/main.rs. -/
structure CommitInfo where
  hash : String
  message : String
  time_ago : String
deriving DecidableEq, Repr

/-- Mirrors struct Worktree in src/src/main.rs. PathBuf is modelled as String
and i64 timestamps as Int. -/
structure Worktree where
  path : String
  branch : Option String
  commit : String
  commit_short : String
  commit_message : String
  commit_time : Option Int
  is_main : Bool
  is_current : Bool
  is_bare : Bool
  is_detached : Bool
  is_locked : Bool
  lock_reason : Option String
  is_prunable : Bool
  status : WorktreeStatus
  recent_commits : List CommitInfo
deriving DecidableEq, Repr

/-- Mirrors enum SortOrder in src/src/main.rs. -/
inductive SortOrder where
  | name
  | status
  | recent
deriving DecidableEq, Repr

/-- Mirrors SortOrder::next. -/
def SortOrder.next : SortOrder → SortOrder
  | .name => .status
  | .status => .recent
  | .recent => .name

/-- Three-way comparison of a linearly ordered type, mirroring Ord::cmp of
the Rust primitive and String types (both lexicographic total orders). -/
def linCmp {α : Type} [LinearOrder α] (a b : α) : Ordering :=
  if a < b then .lt else if a = b then .eq else .gt

/-- Mirrors Ord::cmp on Option: None sorts before Some, Some compares inner. -/
def optCmp {α : Type} (c : α → α → Ordering) : Option α → Option α → Ordering
  | none, none => .eq
  | none, some _ => .lt
  | some _, none => .gt
  | some a, some b => c a b

/-- The comparator of App::apply_sort in src/src/main.rs: the main worktree is
pinned first in every order; otherwise Name compares branches, Status puts
dirty before clean tie-broken by branch, Recent compares commit time
descending. -/
def sortCmp (o : SortOrder) (a b : Worktree) : Ordering :=
  if a.is_main then .lt
  else if b.is_main then .gt
  else match o with
    | .name => optCmp linCmp a.branch b.branch
    | .status =>
        (linCmp (!b.status.is_clean) (!a.status.is_clean)).then
          (optCmp linCmp a.branch b.branch)
    | .recent => optCmp linCmp b.commit_time a.commit_time

/-- The non-strict order induced by sortCmp; a stable sort by a comparator
orders elements so that consecutive pairs never compare Greater. -/
def sortLE (o : SortOrder) (a b : Worktree) : Bool :=
  match sortCmp o a b with
  | .gt => false
  | _ => true

/-- Mirrors App::apply_sort: Vec::sort_by is a stable sort by sortCmp, which a
stable insertion sort by the induced non-strict order realises. -/
def apply_sort (o : SortOrder) (l : List Worktree) : List Worktree :=
  l.insertionSort (fun a b => sortLE o a b = true)

/-- The slice of struct App (src/src/main.rs) the claims concern: the record
collection, the table selection, the search query, the derived filtered
index list and the active sort order. -/
structure AppState where
  worktrees : List Worktree
  selected : Option Nat
  search_query : String
  filtered_indices : List Nat
  sort_order : SortOrder
deriving Repr

/-- Mirrors App::selected_worktree: the selection is a position into
filtered_indices, which in turn indexes worktrees. -/
def selected_worktree (s : AppState) : Option Worktree :=
  s.selected.bind fun i => (s.filtered_indices[i]?).bind fun idx => s.worktrees[idx]?

/-- Model of str::to_lowercase as a character list (ASCII-faithful). -/
def lowerChars (s : String) : List Char :=
  s.toList.map Char.toLower

/-- Substring containment on character lists, mirroring str::contains. -/
def containsChars : List Char → List Char → Bool
  | [], q => q.isEmpty
  | c :: t, q => q.isPrefixOf (c :: t) || containsChars t q

/-- One worktree of the predicate in App::update_search_filter: the lowercased
query is a substring of the lowercased path, branch name (when present) or
commit summary. -/
def wtMatchesLower (q : List Char) (w : Worktree) : Bool :=
  containsChars (lowerChars w.path) q
    || (w.branch.map fun b => containsChars (lowerChars b) q).getD false
    || containsChars (lowerChars w.commit_message) q

/-- Mirrors App::update_search_filter in src/src/main.rs: rebuild
filtered_indices from the lowercased query, then reset the selection to the
first entry (or none) when the old selected position is at or past the new
filtered length. -/
def update_search_filter (s : AppState) : AppState :=
  let q := lowerChars s.search_query
  let fi := (s.worktrees.enum.filter fun p => wtMatchesLower q p.2).map Prod.fst
  let sel :=
    if s.selected.getD 0 ≥ fi.length then
      if fi.isEmpty then none else some 0
    else s.selected
  { s with filtered_indices := fi, selected := sel }

/-- Mirrors the AppUpdate::WorktreesLoaded arm of run_app in src/src/main.rs:
replace the collection, re-sort, reset filtered_indices to the full range,
then restore the remembered numeric selection clamped into the new range. -/
def applyBackgroundResult (s : AppState) (new_wts : List Worktree) : AppState :=
  let sorted := apply_sort s.sort_order new_wts
  let fi := List.range sorted.length
  let sel :=
    match s.selected with
    | some idx =>
        if idx < fi.length then some idx
        else if !fi.isEmpty then some 0
        else some idx
    | none => if !fi.isEmpty then some 0 else none
  { s with worktrees := sorted, filtered_indices := fi, selected := sel }

/-- Mirrors App::cycle_sort in src/src/main.rs: advance the order, remember
the selected branch name, re-sort, reset filtered_indices to the full range,
re-select the position of the first worktree with the remembered branch name,
and re-run the search filter when a query is active. -/
def cycle_sort (s : AppState) : AppState :=
  let s1 := { s with sort_order := s.sort_order.next }
  let selName := (selected_worktree s1).bind fun wt => wt.branch
  let sorted := apply_sort s1.sort_order s1.worktrees
  let fi := List.range sorted.length
  let s2 := { s1 with worktrees := sorted, filtered_indices := fi }
  let s3 :=
    match selName with
    | some n =>
        match sorted.findIdx? (fun wt => wt.branch == some n) with
        | some pos =>
            match fi.findIdx? (fun idx => idx == pos) with
            | some fpos => { s2 with selected := some fpos }
            | none => s2
        | none => s2
    | none => s2
  if s3.search_query ≠ "" then update_search_filter s3 else s3

/-! ## Disk cache (src/src/cache.rs) -/

/-- Mirrors CachedWorktreeStatus in src/src/cache.rs. -/
structure CachedWorktreeStatus where
  modified : Nat
  staged : Nat
  untracked : Nat
  ahead : Nat
  behind : Nat
deriving DecidableEq, Repr

/-- Mirrors CachedCommitInfo in src/src/cache.rs. -/
structure CachedCommitInfo where
  hash : String
  message : String
  time_ago : String
deriving DecidableEq, Repr

/-- Mirrors CachedWorktree in src/src/cache.rs. -/
structure CachedWorktree where
  path : String
  branch : Option String
  commit : String
  commit_short : String
  commit_message : String
  commit_time : Option Int
  is_main : Bool
  is_current : Bool
  is_bare : Bool
  is_detached : Bool
  is_locked : Bool
  lock_reason : Option String
  is_prunable : Bool
  status : CachedWorktreeStatus
  recent_commits : List CachedCommitInfo
deriving DecidableEq, Repr

/-- Mirrors const CACHE_TTL_SECS in src/src/cache.rs. -/
def CACHE_TTL_SECS : Nat := 10

/-- Mirrors WorktreeCache in src/src/cache.rs: timestamp, owning repo root
and the serialized worktree list. -/
structure WorktreeCache where
  timestamp : Nat
  repo_root : String
  worktrees : List CachedWorktree
deriving DecidableEq, Repr

/-- Mirrors WorktreeCache::is_fresh: the saturating age in whole seconds is
strictly below the TTL (Nat subtraction saturates exactly like
u64::saturating_sub). -/
def WorktreeCache.is_fresh (c : WorktreeCache) (now : Nat) : Bool :=
  decide (now - c.timestamp < CACHE_TTL_SECS)

/-- Mirrors Path::starts_with in the model where paths are strings. -/
def pathStartsWith (p base : String) : Bool :=
  base.isPrefixOf p

/-- Mirrors App::worktrees_from_cache in src/src/main.rs: is_main is
recomputed as path equality with the repo root, is_current as the current
path lying at or beneath the record's path. -/
def worktrees_from_cache (cached : List CachedWorktree) (repo_root current_path : String) :
    List Worktree :=
  cached.map fun c =>
    { path := c.path
      branch := c.branch
      commit := c.commit
      commit_short := c.commit_short
      commit_message := c.commit_message
      commit_time := c.commit_time
      is_main := c.path == repo_root
      is_current := pathStartsWith current_path c.path
      is_bare := c.is_bare
      is_detached := c.is_detached
      is_locked := c.is_locked
      lock_reason := c.lock_reason
      is_prunable := c.is_prunable
      status := ⟨c.status.modified, c.status.staged, c.status.untracked,
                 c.status.ahead, c.status.behind⟩
      recent_commits := c.recent_commits.map fun ci => ⟨ci.hash, ci.message, ci.time_ago⟩ }

/-- One slot of the cache directory: no file, a file that does not parse as a
cache envelope, or a file that parses to one (serde JSON round-trips the
envelope losslessly, so a parseable file is modelled by the envelope held). -/
inductive FsFile where
  | missing
  | garbage
  | stored (c : WorktreeCache)
deriving DecidableEq

/-- The filesystem as save_cache and load_cache observe it: whether a cache
directory can be determined at all, and the file (keyed by the hash of the
repo root) at each slot. -/
structure FsState where
  has_cache_dir : Bool
  files : Nat → FsFile

/-- Mirrors load_cache in src/src/cache.rs: None when no cache directory can
be determined, when no file exists, when the file fails to parse, or when the
stored repo root differs from the requested one. The hash of cache_file_path
is an arbitrary function, so hash collisions are part of the model. -/
def load_cache (hash : String → Nat) (fs : FsState) (repo_root : String) :
    Option WorktreeCache :=
  if fs.has_cache_dir then
    match fs.files (hash repo_root) with
    | .missing => none
    | .garbage => none
    | .stored c => if c.repo_root = repo_root then some c else none
  else none

/-- Mirrors save_cache in src/src/cache.rs: an error when no cache directory
can be determined, otherwise the serialized envelope replaces the slot keyed
by the hash of its repo root. -/
def save_cache (hash : String → Nat) (fs : FsState) (c : WorktreeCache) :
    Except String FsState :=
  if fs.has_cache_dir then
    .ok { fs with
          files := fun k => if k = hash c.repo_root then .stored c else fs.files k }
  else .error "Could not determine cache directory"

/-! ## Per-worktree git status (get_gix_status, both versions) -/

/-- Abstraction of the per-worktree repository state the status and
ahead-behind code observes: the HEAD reference, the set of commits reachable
from HEAD (the result of rev_walk(HEAD).all()), whether the upstream
remote-tracking reference resolves, the commits reachable from it, and the
per-item counts the status iterator yields. -/
structure RepoModel where
  is_bare : Bool
  head_branch : Option String
  head_id : Option String
  head_commits : List String
  upstream_resolvable : Bool
  upstream_commits : List String
  items_modification : Nat
  items_other : Nat
deriving Repr

/-- Mirrors App::get_gix_status in src/src/main.rs (lines 578-604): counts
only Modification items and then leaves ahead and behind at the placeholder
zero. -/
def get_gix_status (r : RepoModel) : WorktreeStatus :=
  if r.is_bare then default
  else { modified := r.items_modification, staged := 0, untracked := 0,
         ahead := 0, behind := 0 }

namespace ImplApp

/-- Mirrors App::get_gix_status in src/impl_app.rs (lines 300-342): every
status item increments modified; when HEAD is on a branch whose upstream
reference resolves and HEAD has an id, ahead is set to the length of the full
revision walk from HEAD (all reachable commits, not the difference against
the upstream); behind is never assigned. -/
def get_gix_status (r : RepoModel) : WorktreeStatus :=
  if r.is_bare then default
  else
    let base : WorktreeStatus :=
      { modified := r.items_modification + r.items_other, staged := 0,
        untracked := 0, ahead := 0, behind := 0 }
    if r.head_branch.isSome && r.upstream_resolvable && r.head_id.isSome then
      { base with ahead := r.head_commits.length }
    else base

end ImplApp

/-- The ahead and behind counts as section 4.2 of the specification defines
them, written from the specification for comparison with the code: ahead is
the number of commits reachable from HEAD but not from the configured
upstream, behind the count of the opposite walk, and both zero when no
upstream is configured. -/
def spec_ahead_behind (r : RepoModel) : Nat × Nat :=
  if r.head_branch.isSome && r.upstream_resolvable && r.head_id.isSome then
    ((r.head_commits.filter fun c => !(r.upstream_commits.contains c)).length,
     (r.upstream_commits.filter fun c => !(r.head_commits.contains c)).length)
  else (0, 0)

/-! ## Detail fetch (fetch_all_worktrees and refresh_worktrees) -/

/-- The outcome environment of one per-worktree detail unit: whether
gix::open succeeds at the worktree path, and the result of each sub-fetch
(None models the fallible call returning Err). -/
structure DetailEnv where
  open_ok : Bool
  status : Option WorktreeStatus
  commit : Option (String × Option Int)
  recent : Option (List CommitInfo)

/-- What fetch_all_worktrees in src/src/main.rs (and src/fetch_final.rs) does
to one record in the parallel detail phase: bare or prunable records are
skipped; when open fails every detail field is assigned its default; when
open succeeds each sub-fetch independently falls back to its own default on
error (unwrap_or_default and unwrap_or_else). -/
def fetch_detail_one (w : Worktree) (e : DetailEnv) : Worktree :=
  if w.is_bare || w.is_prunable then w
  else if e.open_ok then
    { w with
      status := e.status.getD default
      commit_message := (e.commit.getD ("", none)).1
      commit_time := (e.commit.getD ("", none)).2
      recent_commits := e.recent.getD [] }
  else
    { w with status := default, commit_message := "", commit_time := none,
             recent_commits := [] }

/-- The join phase writes each unit's result back at its spawn index. -/
def fetch_details_go (env : Nat → DetailEnv) : Nat → List Worktree → List Worktree
  | _, [] => []
  | i, w :: t => fetch_detail_one w (env i) :: fetch_details_go env (i + 1) t

/-- The whole parallel detail phase of fetch_all_worktrees: one independent
unit per worktree (indexed from zero), all joined. -/
def fetch_details (wts : List Worktree) (env : Nat → DetailEnv) : List Worktree :=
  fetch_details_go env 0 wts

/-- The identity of one worktree as the repository reader yields it to
get_wt_info / create_worktree_info. -/
structure WtInfo where
  path : String
  branch : Option String
  commit : String
  is_locked : Bool
  lock_reason : Option String
  path_exists : Bool
deriving Repr

/-- Mirrors the record constructed by get_wt_info in fetch_all_worktrees (and
create_worktree_info): commit_short is the first seven characters of the
commit id, only the main worktree of a bare repository is bare, and
is_prunable is recomputed as the path not existing on disk. -/
def mkWorktreeInfo (repoBare isMain : Bool) (cur : String) (i : WtInfo) : Worktree :=
  { path := i.path
    branch := i.branch
    commit := i.commit
    commit_short := String.mk (i.commit.toList.take 7)
    commit_message := ""
    commit_time := none
    is_main := isMain
    is_current := pathStartsWith cur i.path
    is_bare := repoBare && isMain
    is_detached := false
    is_locked := i.is_locked
    lock_reason := i.lock_reason
    is_prunable := !i.path_exists
    status := default
    recent_commits := [] }

/-- The base list both fetch_all_worktrees and refresh_worktrees build before
the detail phase: the main worktree first (with lock fields hardcoded clear,
as the None proxy arm does), then one record per linked worktree proxy. -/
def base_worktrees (repoBare : Bool) (cur : String) (mainInfo : WtInfo)
    (linked : List WtInfo) : List Worktree :=
  mkWorktreeInfo repoBare true cur { mainInfo with is_locked := false, lock_reason := none }
    :: linked.map (mkWorktreeInfo repoBare false cur)

/-- Mirrors fetch_all_worktrees in src/src/main.rs after the repository and
worktree listing succeed: base list, then the parallel per-unit detail
phase. -/
def fetch_all_worktrees_model (repoBare : Bool) (cur : String) (mainInfo : WtInfo)
    (linked : List WtInfo) (env : Nat → DetailEnv) : List Worktree :=
  fetch_details (base_worktrees repoBare cur mainInfo linked) env

/-- What refresh_worktrees in src/src/main.rs (lines 462-474) does to one
record in its sequential detail loop: only bare records are skipped; for
every other record (prunable ones included) gix::open and each sub-fetch are
propagated with the question-mark operator, so any error aborts the whole
synchronous refresh. -/
def refresh_detail_one (w : Worktree) (e : DetailEnv) : Except String Worktree :=
  if !w.is_bare then
    if e.open_ok then
      match e.status with
      | none => .error "Failed to get status"
      | some st =>
        match e.commit with
        | none => .error "Failed to get commit info"
        | some ci =>
          match e.recent with
          | none => .error "Failed to get recent commits"
          | some rc =>
            .ok { w with status := st, commit_message := ci.1,
                         commit_time := ci.2, recent_commits := rc }
    else .error "Failed to open worktree repo"
  else .ok w

/-- The sequential detail loop of refresh_worktrees over the whole list; the
first error aborts it, as the question-mark operator does. -/
def refresh_details_go (env : Nat → DetailEnv) :
    Nat → List Worktree → Except String (List Worktree)
  | _, [] => .ok []
  | i, w :: t =>
    match refresh_detail_one w (env i) with
    | .error e => .error e
    | .ok w1 =>
      match refresh_details_go env (i + 1) t with
      | .error e => .error e
      | .ok t1 => .ok (w1 :: t1)

/-- The detail phase of the synchronous refresh_worktrees. -/
def refresh_details (wts : List Worktree) (env : Nat → DetailEnv) :
    Except String (List Worktree) :=
  refresh_details_go env 0 wts

/-- The set of worktrees for which fetch_all_worktrees attempts the detail
fetch: its loop skips a record when is_bare or is_prunable holds. -/
def fetch_detail_targets (wts : List Worktree) : List Worktree :=
  wts.filter fun w => !(w.is_bare || w.is_prunable)

/-- The set of worktrees for which refresh_worktrees attempts the detail
fetch: its loop guards only on is_bare. -/
def refresh_detail_targets (wts : List Worktree) : List Worktree :=
  wts.filter fun w => !w.is_bare

/-- The state refresh_worktrees leaves after a successful detail phase:
collection replaced and sorted, filtered indices rebuilt (search filter when
a query is active, else the full range); the selection is not touched. -/
def apply_refresh_result (s : AppState) (out : List Worktree) : AppState :=
  let sorted := apply_sort s.sort_order out
  let s1 := { s with worktrees := sorted }
  if s1.search_query ≠ "" then update_search_filter s1
  else { s1 with filtered_indices := List.range sorted.length }

/-- Mirrors the cache branch of App::new in src/src/main.rs: records rebuilt
from the cached envelope, sorted with the initial Recent order, filtered
indices the full range and the first row selected; an empty reconstruction
leaves the empty defaults. -/
def init_from_cache (cached : List CachedWorktree) (repo_root current_path : String) :
    AppState :=
  let wts := worktrees_from_cache cached repo_root current_path
  if wts.isEmpty then
    { worktrees := wts, selected := none, search_query := "",
      filtered_indices := [], sort_order := .recent }
  else
    let sorted := apply_sort .recent wts
    { worktrees := sorted, selected := some 0, search_query := "",
      filtered_indices := List.range sorted.length, sort_order := .recent }

/-! ## Helper lemmas -/

lemma sortLE_of_main (o : SortOrder) {m : Worktree} (x : Worktree) (hm : m.is_main = true) :
    sortLE o m x = true := by
  simp [sortLE, sortCmp, hm]

lemma sortLE_nonmain_main (o : SortOrder) {a m : Worktree} (ha : a.is_main = false)
    (hm : m.is_main = true) : sortLE o a m = false := by
  simp [sortLE, sortCmp, ha, hm]

lemma length_apply_sort (o : SortOrder) (l : List Worktree) :
    (apply_sort o l).length = l.length :=
  (List.perm_insertionSort _ l).length_eq

lemma mem_apply_sort {o : SortOrder} {l : List Worktree} {w : Worktree} (h : w ∈ l) :
    w ∈ apply_sort o l :=
  ((List.perm_insertionSort _ l).mem_iff).mpr h

lemma fetch_detail_one_is_main (w : Worktree) (e : DetailEnv) :
    (fetch_detail_one w e).is_main = w.is_main := by
  unfold fetch_detail_one
  split
  · rfl
  · split <;> rfl

lemma fetch_detail_one_is_bare (w : Worktree) (e : DetailEnv) :
    (fetch_detail_one w e).is_bare = w.is_bare := by
  unfold fetch_detail_one
  split
  · rfl
  · split <;> rfl

lemma fetch_detail_one_is_prunable (w : Worktree) (e : DetailEnv) :
    (fetch_detail_one w e).is_prunable = w.is_prunable := by
  unfold fetch_detail_one
  split
  · rfl
  · split <;> rfl

lemma fetch_detail_one_skip {w : Worktree} (e : DetailEnv)
    (h : w.is_bare = true ∨ w.is_prunable = true) : fetch_detail_one w e = w := by
  unfold fetch_detail_one
  rcases h with h | h <;> simp [h]

lemma fetch_details_go_length (env : Nat → DetailEnv) :
    ∀ (l : List Worktree) (i : Nat), (fetch_details_go env i l).length = l.length := by
  intro l
  induction l with
  | nil => intro i; rfl
  | cons w t ih => intro i; simp [fetch_details_go, ih]

lemma fetch_details_go_getElem? (env : Nat → DetailEnv) :
    ∀ (l : List Worktree) (i n : Nat),
      (fetch_details_go env i l)[n]? =
        (l[n]?).map fun w => fetch_detail_one w (env (i + n)) := by
  intro l
  induction l with
  | nil => intro i n; simp [fetch_details_go]
  | cons w t ih =>
    intro i n
    cases n with
    | zero => simp [fetch_details_go]
    | succ k =>
      simp only [fetch_details_go, List.getElem?_cons_succ]
      rw [ih (i + 1) k]
      have hidx : i + 1 + k = i + (k + 1) := by omega
      rw [hidx]

lemma fetch_details_go_countP_main (env : Nat → DetailEnv) :
    ∀ (l : List Worktree) (i : Nat),
      ((fetch_details_go env i l).countP fun w => w.is_main) =
        l.countP fun w => w.is_main := by
  intro l
  induction l with
  | nil => intro i; rfl
  | cons w t ih =>
    intro i
    simp [fetch_details_go, List.countP_cons, ih, fetch_detail_one_is_main]

lemma base_worktrees_countP_main (repoBare : Bool) (cur : String) (mainInfo : WtInfo)
    (linked : List WtInfo) :
    ((base_worktrees repoBare cur mainInfo linked).countP fun w => w.is_main) = 1 := by
  unfold base_worktrees
  rw [List.countP_cons_of_pos _ _ (by rfl)]
  rw [List.countP_map]
  rw [List.countP_eq_zero.mpr]
  intro a _
  simp [mkWorktreeInfo]

lemma base_worktrees_defaults (repoBare : Bool) (cur : String) (mainInfo : WtInfo)
    (linked : List WtInfo) :
    ∀ w ∈ base_worktrees repoBare cur mainInfo linked,
      w.status = default ∧ w.commit_message = "" ∧ w.commit_time = none ∧
        w.recent_commits = [] := by
  intro w hw
  simp only [base_worktrees, List.mem_cons, List.mem_map] at hw
  rcases hw with rfl | ⟨i, _, rfl⟩ <;> exact ⟨rfl, rfl, rfl, rfl⟩

lemma fetch_details_go_defaults (env : Nat → DetailEnv) :
    ∀ (l : List Worktree),
      (∀ w ∈ l, w.status = default ∧ w.commit_message = "" ∧ w.commit_time = none ∧
        w.recent_commits = []) →
      ∀ (i : Nat), ∀ w ∈ fetch_details_go env i l,
        w.is_bare = true ∨ w.is_prunable = true →
        w.status = default ∧ w.commit_message = "" ∧ w.commit_time = none ∧
          w.recent_commits = [] := by
  intro l
  induction l with
  | nil => intro _ i w hw; simp [fetch_details_go] at hw
  | cons v t ih =>
    intro hall i w hw hflag
    simp only [fetch_details_go, List.mem_cons] at hw
    rcases hw with rfl | hw
    · by_cases hv : v.is_bare = true ∨ v.is_prunable = true
      · rw [fetch_detail_one_skip _ hv]
        exact hall v (List.mem_cons_self v t)
      · rw [fetch_detail_one_is_bare, fetch_detail_one_is_prunable] at hflag
        exact absurd hflag hv
    · exact ih (fun u hu => hall u (List.mem_cons_of_mem v hu)) (i + 1) w hw hflag

lemma refresh_detail_one_is_main {w : Worktree} {e : DetailEnv} {w1 : Worktree}
    (h : refresh_detail_one w e = .ok w1) : w1.is_main = w.is_main := by
  unfold refresh_detail_one at h
  split at h
  · split at h
    · split at h
      · simp at h
      · split at h
        · simp at h
        · split at h
          · simp at h
          · simp only [Except.ok.injEq] at h
            subst h
            rfl
    · simp at h
  · simp only [Except.ok.injEq] at h
    subst h
    rfl

lemma refresh_details_go_countP_main (env : Nat → DetailEnv) :
    ∀ (l : List Worktree) (i : Nat) (out : List Worktree),
      refresh_details_go env i l = .ok out →
      (out.countP fun w => w.is_main) = l.countP fun w => w.is_main := by
  intro l
  induction l with
  | nil =>
    intro i out h
    simp only [refresh_details_go, Except.ok.injEq] at h
    subst h
    rfl
  | cons w t ih =>
    intro i out h
    unfold refresh_details_go at h
    cases h1 : refresh_detail_one w (env i) with
    | error e => rw [h1] at h; simp at h
    | ok w1 =>
      rw [h1] at h
      cases h2 : refresh_details_go env (i + 1) t with
      | error e => rw [h2] at h; simp at h
      | ok t1 =>
        rw [h2] at h
        simp only [Except.ok.injEq] at h
        subst h
        simp [List.countP_cons, ih (i + 1) t1 h2, refresh_detail_one_is_main h1]

lemma invFI_usf_filtered_sublist (s : AppState) :
    ((s.worktrees.enum.filter fun p =>
        wtMatchesLower (lowerChars s.search_query) p.2).map Prod.fst).Sublist
      (List.range s.worktrees.length) := by
  have h := List.Sublist.map Prod.fst (List.filter_sublist
    (p := fun p => wtMatchesLower (lowerChars s.search_query) p.2) s.worktrees.enum)
  rwa [List.enum_map_fst] at h

/-- The index validity invariant of claim C10: every filtered index is in
bounds, the indices are distinct, and indexing the collection by a filtered
index always yields a record. -/
def invFI (s : AppState) : Prop :=
  (∀ i ∈ s.filtered_indices, i < s.worktrees.length) ∧
    s.filtered_indices.Nodup ∧
    ∀ i ∈ s.filtered_indices, (s.worktrees[i]?).isSome = true

lemma invFI_of_sublist_range {s : AppState}
    (h : s.filtered_indices.Sublist (List.range s.worktrees.length)) : invFI s := by
  have hb : ∀ i ∈ s.filtered_indices, i < s.worktrees.length := fun i hi =>
    List.mem_range.mp (h.subset hi)
  exact ⟨hb, (List.nodup_range _).sublist h,
    fun i hi => by rw [List.getElem?_eq_getElem (hb i hi)]; rfl⟩

lemma invFI_of_range {s : AppState}
    (h : s.filtered_indices = List.range s.worktrees.length) : invFI s :=
  invFI_of_sublist_range (h ▸ List.Sublist.refl _)

lemma invFI_update_search_filter (s : AppState) : invFI (update_search_filter s) :=
  invFI_of_sublist_range (invFI_usf_filtered_sublist s)

lemma mem_filtered_iff (l : List Worktree) (f : Worktree → Bool) (i : Nat) :
    (i ∈ (l.enum.filter fun p => f p.2).map Prod.fst) ↔
      ∃ w, l[i]? = some w ∧ f w = true := by
  simp only [List.mem_map, List.mem_filter]
  constructor
  · rintro ⟨⟨j, w⟩, ⟨hmem, hf⟩, rfl⟩
    exact ⟨w, List.mk_mem_enum_iff_getElem?.mp hmem, hf⟩
  · rintro ⟨w, hget, hf⟩
    exact ⟨(i, w), ⟨List.mk_mem_enum_iff_getElem?.mpr hget, hf⟩, rfl⟩

/-! ## Shared concrete records for witnesses and counterexamples -/

/-- A worktree record with the given path, branch, commit time and main flag
and every other field at its constructed default. -/
def mkWt (path : String) (branch : Option String) (t : Option Int) (main : Bool) : Worktree :=
  { path := path, branch := branch, commit := "", commit_short := "",
    commit_message := "", commit_time := t, is_main := main, is_current := false,
    is_bare := false, is_detached := false, is_locked := false, lock_reason := none,
    is_prunable := false, status := default, recent_commits := [] }

/-! ## Claim C5 -/

/-- Claim C5: for each of the three sort orders, applying the sort to a
collection whose unique main record is m places m first, regardless of how it
would compare under the natural comparator. -/
theorem C5_main_pinned_first (o : SortOrder) :
    ∀ (l : List Worktree) (m : Worktree), m ∈ l → m.is_main = true →
      (∀ w ∈ l, w.is_main = true → w = m) → (apply_sort o l).head? = some m := by
  intro l
  induction l with
  | nil => intro m hm; simp at hm
  | cons a t ih =>
    intro m hmem hmain huniq
    by_cases ha : a = m
    · subst ha
      rw [apply_sort, List.insertionSort_cons]
      · rfl
      · intro b _
        exact sortLE_of_main o b hmain
    · have hmt : m ∈ t := by
        rcases List.mem_cons.mp hmem with h | h
        · exact absurd h.symm ha
        · exact h
      have hanot : a.is_main = false := by
        cases hcase : a.is_main
        · rfl
        · exact absurd (huniq a (List.mem_cons_self a t) hcase) ha
      have iht := ih m hmt hmain fun w hw hwm => huniq w (List.mem_cons_of_mem a hw) hwm
      rw [apply_sort] at iht ⊢
      cases hI : t.insertionSort fun a b => sortLE o a b = true with
      | nil => rw [hI] at iht; simp at iht
      | cons x xs =>
        rw [hI] at iht
        have hx : x = m := by
          simpa using iht
        subst hx
        show ((a :: t).insertionSort fun a b => sortLE o a b = true).head? = some x
        rw [List.insertionSort, hI, List.orderedInsert, if_neg]
        · rfl
        · rw [sortLE_nonmain_main o hanot hmain]
          simp

/-- A concrete main worktree whose branch sorts after every other branch
under the Name order. -/
def c5_main : Worktree := mkWt "/repo" (some "zzz") (some 1) true

/-- A concrete non-main worktree whose branch would win the Name order. -/
def c5_other : Worktree := mkWt "/repo-worktrees/aaa" (some "aaa") (some 99) false

/-- Witness for C5: a concrete collection where the main record loses the
natural Name comparison and is still placed first. -/
theorem C5_main_pinned_first_witness :
    c5_main ∈ [c5_other, c5_main] ∧ c5_main.is_main = true ∧
    (∀ w ∈ [c5_other, c5_main], w.is_main = true → w = c5_main) ∧
    (apply_sort .name [c5_other, c5_main]).head? = some c5_main :=
  ⟨by decide, by decide, by decide,
    C5_main_pinned_first .name [c5_other, c5_main] c5_main (by decide) (by decide)
      (by decide)⟩

/-! ## Claim C1 -/

/-- The stable identity match the specification prescribes for selection
preservation: branch name preferred, path as fallback. -/
def matchesIdentity (prev w : Worktree) : Bool :=
  match prev.branch with
  | some b => w.branch == some b
  | none => w.path == prev.path

/-- Claim C1 as stated: whenever a background fetch result is applied while a
record is selected and an identity-matching record exists in the new sorted
collection, the selection afterwards rests on an identity-matching record. -/
def claimC1 : Prop :=
  ∀ (s : AppState) (new_wts : List Worktree) (prev : Worktree),
    selected_worktree s = some prev →
    (∃ w, w ∈ apply_sort s.sort_order new_wts ∧ matchesIdentity prev w = true) →
    ∃ w, selected_worktree (applyBackgroundResult s new_wts) = some w ∧
      matchesIdentity prev w = true

/-- The main worktree of the C1 scenario. -/
def c1_main : Worktree := mkWt "/repo" (some "main") (some 100) true

/-- The selected worktree of the C1 scenario, on branch feature-x. -/
def c1_feature : Worktree := mkWt "/w/feature-x" (some "feature-x") (some 90) false

/-- The bugfix-y worktree before the refresh (older commit time). -/
def c1_bugfix : Worktree := mkWt "/w/bugfix-y" (some "bugfix-y") (some 80) false

/-- The bugfix-y worktree as the background fetch returns it: a new commit
makes it the most recent non-main record. -/
def c1_bugfix_new : Worktree := mkWt "/w/bugfix-y" (some "bugfix-y") (some 200) false

/-- The app state before the refresh: Recent order, feature-x selected at
position 1. -/
def c1_state : AppState := ⟨[c1_main, c1_feature, c1_bugfix], some 1, "", [0, 1, 2], .recent⟩

/-- The background fetch result: the same three worktrees, bugfix-y now the
most recent. -/
def c1_new : List Worktree := [c1_main, c1_feature, c1_bugfix_new]

/-- Counterexample to claim C1 as stated: with feature-x selected at position
1, a background result in which bugfix-y gained a newer commit re-sorts to
[main, bugfix-y, feature-x]; the code restores position 1, so bugfix-y ends
selected although a feature-x record exists in the new collection. -/
theorem C1_identity_preservation_counterexample : ¬claimC1 := by
  intro h
  obtain ⟨w, hw, hm⟩ :=
    h c1_state c1_new c1_feature (by decide) ⟨c1_feature, by decide, by decide⟩
  have hsel : selected_worktree (applyBackgroundResult c1_state c1_new) =
      some c1_bugfix_new := by decide
  rw [hsel] at hw
  injection hw with hw
  subst hw
  exact absurd hm (by decide)

/-- Claim C1 (amended): applying a background fetch result restores the
selection by numeric position, not identity: when a position p is selected
and p is within the new collection, the selection stays at position p and the
selected record is whatever the re-sorted new collection holds at p. -/
theorem C1_background_selection_is_positional (s : AppState) (new_wts : List Worktree)
    (p : Nat) (hsel : s.selected = some p) (hlen : p < new_wts.length) :
    (applyBackgroundResult s new_wts).selected = some p ∧
    selected_worktree (applyBackgroundResult s new_wts) =
      (apply_sort s.sort_order new_wts)[p]? := by
  have hlen2 : p < (apply_sort s.sort_order new_wts).length := by
    rw [length_apply_sort]; exact hlen
  have hrange : (List.range (apply_sort s.sort_order new_wts).length)[p]? = some p :=
    List.getElem?_range hlen2
  constructor
  · simp [applyBackgroundResult, hsel, List.length_range, hlen2]
  · simp [applyBackgroundResult, selected_worktree, hsel, List.length_range, hlen2, hrange]

/-- Witness for the amended C1 at the concrete scenario of the
counterexample. -/
theorem C1_background_selection_is_positional_witness :
    c1_state.selected = some 1 ∧ 1 < c1_new.length ∧
    ((applyBackgroundResult c1_state c1_new).selected = some 1 ∧
      selected_worktree (applyBackgroundResult c1_state c1_new) =
        (apply_sort c1_state.sort_order c1_new)[1]?) :=
  ⟨by decide, by decide,
    C1_background_selection_is_positional c1_state c1_new 1 (by decide) (by decide)⟩

/-! ## Claim C2 -/

/-- A repository with HEAD on a branch whose upstream resolves, two commits
reachable from HEAD and one of them also reachable from the upstream: the
true ahead count is 1 and the true behind count is 0. -/
def c2_repo : RepoModel :=
  { is_bare := false, head_branch := some "main", head_id := some "c2",
    head_commits := ["c2", "c1"], upstream_resolvable := true,
    upstream_commits := ["c1"], items_modification := 0, items_other := 0 }

/-- The same repository with no resolvable upstream. -/
def c2_repo_noupstream : RepoModel := { c2_repo with upstream_resolvable := false }

/-- Claim C2: the specification requires ahead = commits reachable from HEAD
but not the upstream and behind the opposite walk. The code diverges at
c2_repo: the main.rs version leaves both counts at the placeholder zero, and
the impl_app.rs version counts every commit reachable from HEAD as ahead
(2 instead of 1) and never assigns behind. Only the no-upstream case agrees
with the specification. -/
theorem C2_ahead_behind_divergence :
    spec_ahead_behind c2_repo = (1, 0) ∧
    (get_gix_status c2_repo).ahead = 0 ∧ (get_gix_status c2_repo).behind = 0 ∧
    (ImplApp.get_gix_status c2_repo).ahead = 2 ∧
    (ImplApp.get_gix_status c2_repo).behind = 0 ∧
    (get_gix_status c2_repo).ahead ≠ (spec_ahead_behind c2_repo).1 ∧
    (ImplApp.get_gix_status c2_repo).ahead ≠ (spec_ahead_behind c2_repo).1 ∧
    spec_ahead_behind c2_repo_noupstream = (0, 0) ∧
    (get_gix_status c2_repo_noupstream).ahead = 0 ∧
    (get_gix_status c2_repo_noupstream).behind = 0 ∧
    (ImplApp.get_gix_status c2_repo_noupstream).ahead = 0 ∧
    (ImplApp.get_gix_status c2_repo_noupstream).behind = 0 := by
  decide

/-! ## Claim C3 -/

/-- A per-worktree detail unit counts as failed when any of its fallible
steps fails: the repository open, the status fetch, the commit info fetch or
the recent-commits fetch. -/
def unitFailed (e : DetailEnv) : Bool :=
  !e.open_ok || e.status.isNone || e.commit.isNone || e.recent.isNone

/-- Claim C3 as stated: over non-bare, non-prunable worktrees the aggregate
fetch keeps one record per worktree, every worktree whose unit failed carries
all-default detail fields, and every other worktree carries its fetched
data. -/
def claimC3 : Prop :=
  ∀ (base : List Worktree) (env : Nat → DetailEnv),
    (∀ w ∈ base, w.is_bare = false ∧ w.is_prunable = false) →
    (fetch_details base env).length = base.length ∧
    (∀ i, i < base.length → unitFailed (env i) = true →
      ∃ w, (fetch_details base env)[i]? = some w ∧ w.status = default ∧
        w.commit_message = "" ∧ w.commit_time = none ∧ w.recent_commits = []) ∧
    (∀ i, i < base.length → unitFailed (env i) = false →
      ∃ w, (fetch_details base env)[i]? = some w ∧
        w.status = (env i).status.getD default ∧
        w.commit_message = ((env i).commit.getD ("", none)).1 ∧
        w.commit_time = ((env i).commit.getD ("", none)).2 ∧
        w.recent_commits = (env i).recent.getD [])

/-- A non-bare, non-prunable worktree for the C3 scenario. -/
def c3_w : Worktree := mkWt "/w/topic" (some "topic") none false

/-- A detail environment whose status fetch fails while the open and the
commit info fetch succeed. -/
def c3_env : Nat → DetailEnv := fun _ => ⟨true, none, some ("fix", some 5), some []⟩

/-- The record the code actually produces for c3_w under c3_env: default
status but the fetched commit message. -/
def c3_actual : Worktree :=
  { c3_w with status := default, commit_message := "fix", commit_time := some 5,
              recent_commits := [] }

/-- Counterexample to claim C3 as stated: when only the status sub-fetch of a
unit fails, the code keeps the successfully fetched commit message instead of
substituting the empty one the claim requires for a failed unit. -/
theorem C3_whole_unit_defaults_counterexample : ¬claimC3 := by
  intro h
  obtain ⟨w, hw, _, hmsg, _, _⟩ :=
    (h [c3_w] c3_env (by decide)).2.1 0 (by decide) (by decide)
  have hval : (fetch_details [c3_w] c3_env)[0]? = some c3_actual := by decide
  rw [hval] at hw
  injection hw with hw
  subst hw
  exact absurd hmsg (by decide)

/-- Claim C3 (amended): the aggregate detail phase keeps one record per
worktree and substitutes defaults per failing sub-operation, not per
worktree: an open failure defaults every detail field, while after a
successful open each of status, commit info and recent commits independently
falls back to its own default on error and keeps its fetched value on
success; the phase itself never fails. -/
theorem C3_per_suboperation_defaults (base : List Worktree) (env : Nat → DetailEnv) :
    (fetch_details base env).length = base.length ∧
    (∀ i, (fetch_details base env)[i]? =
      (base[i]?).map fun w => fetch_detail_one w (env i)) ∧
    (∀ (w : Worktree) (e : DetailEnv), w.is_bare = false → w.is_prunable = false →
      e.open_ok = false →
      fetch_detail_one w e =
        { w with status := default, commit_message := "", commit_time := none,
                 recent_commits := [] }) ∧
    (∀ (w : Worktree) (e : DetailEnv), w.is_bare = false → w.is_prunable = false →
      e.open_ok = true →
      fetch_detail_one w e =
        { w with status := e.status.getD default,
                 commit_message := (e.commit.getD ("", none)).1,
                 commit_time := (e.commit.getD ("", none)).2,
                 recent_commits := e.recent.getD [] }) := by
  refine ⟨fetch_details_go_length env base 0, fun i => ?_, ?_, ?_⟩
  · have h := fetch_details_go_getElem? env base 0 i
    simpa using h
  · intro w e hb hp ho
    simp [fetch_detail_one, hb, hp, ho]
  · intro w e hb hp ho
    simp [fetch_detail_one, hb, hp, ho]

/-! ## Claim C4 -/

/-- Claim C4 as stated: after any refresh that produces a non-empty
collection (background fetch, synchronous refresh, or reconstruction from the
disk cache) exactly one record has is_main = true. -/
def claimC4 : Prop :=
  (∀ (repoBare : Bool) (cur : String) (mainInfo : WtInfo) (linked : List WtInfo)
      (env : Nat → DetailEnv),
    ((fetch_all_worktrees_model repoBare cur mainInfo linked env).countP
      fun w => w.is_main) = 1) ∧
  (∀ (repoBare : Bool) (cur : String) (mainInfo : WtInfo) (linked : List WtInfo)
      (env : Nat → DetailEnv) (out : List Worktree),
    refresh_details (base_worktrees repoBare cur mainInfo linked) env = .ok out →
    (out.countP fun w => w.is_main) = 1) ∧
  (∀ (cached : List CachedWorktree) (root cur : String),
    worktrees_from_cache cached root cur ≠ [] →
    ((worktrees_from_cache cached root cur).countP fun w => w.is_main) = 1)

/-- A cached worktree whose stored path differs from the repo root it will be
reloaded under (for example after the worktree was recorded under a
differently canonicalized path). -/
def c4_cached : CachedWorktree :=
  { path := "/elsewhere", branch := some "main", commit := "", commit_short := "",
    commit_message := "", commit_time := none, is_main := true, is_current := false,
    is_bare := false, is_detached := false, is_locked := false, lock_reason := none,
    is_prunable := false, status := ⟨0, 0, 0, 0, 0⟩, recent_commits := [] }

/-- Counterexample to claim C4 as stated: reconstruction from a cache whose
records' paths do not include the repo root yields a non-empty collection
with no is_main record at all (worktrees_from_cache recomputes is_main as
path equality with the root and ignores the stored flag). -/
theorem C4_cache_unique_main_counterexample : ¬claimC4 := by
  intro h
  exact absurd (h.2.2 [c4_cached] "/r" "/r" (by decide)) (by decide)

/-- Claim C4 (amended): the background fetch and a successful synchronous
refresh always produce exactly one is_main record; reconstruction from the
disk cache marks is_main exactly on the records whose stored path equals the
requested repo root, so their number equals the number of such cached
records, which can be zero or several. -/
theorem C4_unique_main_fetch_and_cache :
    (∀ (repoBare : Bool) (cur : String) (mainInfo : WtInfo) (linked : List WtInfo)
        (env : Nat → DetailEnv),
      ((fetch_all_worktrees_model repoBare cur mainInfo linked env).countP
        fun w => w.is_main) = 1) ∧
    (∀ (repoBare : Bool) (cur : String) (mainInfo : WtInfo) (linked : List WtInfo)
        (env : Nat → DetailEnv) (out : List Worktree),
      refresh_details (base_worktrees repoBare cur mainInfo linked) env = .ok out →
      (out.countP fun w => w.is_main) = 1) ∧
    (∀ (cached : List CachedWorktree) (root cur : String),
      ((worktrees_from_cache cached root cur).countP fun w => w.is_main) =
        cached.countP fun c => c.path == root) := by
  refine ⟨?_, ?_, ?_⟩
  · intro repoBare cur mainInfo linked env
    rw [fetch_all_worktrees_model, fetch_details, fetch_details_go_countP_main,
      base_worktrees_countP_main]
  · intro repoBare cur mainInfo linked env out h
    rw [refresh_details] at h
    rw [refresh_details_go_countP_main env _ 0 out h, base_worktrees_countP_main]
  · intro cached root cur
    rw [worktrees_from_cache, List.countP_map]
    rfl

/-! ## Claim C6 -/

/-- Claim C6: with TTL = 10 seconds, an envelope of age 9 seconds (timestamp
now - TTL + 1) is fresh, one of age 11 seconds (timestamp now - TTL - 1) is
stale, and in general is_fresh holds exactly when the saturating age in whole
seconds is strictly below 10. -/
theorem C6_freshness_boundary (now : Nat) (root : String) (wts : List CachedWorktree)
    (h : 11 ≤ now) :
    WorktreeCache.is_fresh ⟨now - CACHE_TTL_SECS + 1, root, wts⟩ now = true ∧
    WorktreeCache.is_fresh ⟨now - CACHE_TTL_SECS - 1, root, wts⟩ now = false ∧
    ∀ ts, WorktreeCache.is_fresh ⟨ts, root, wts⟩ now = decide (now - ts < 10) := by
  refine ⟨?_, ?_, fun ts => rfl⟩
  · simp only [WorktreeCache.is_fresh, CACHE_TTL_SECS, decide_eq_true_eq]
    omega
  · simp only [WorktreeCache.is_fresh, CACHE_TTL_SECS, decide_eq_false_iff_not]
    omega

/-- Witness for C6 at now = 100: timestamp 91 is fresh, timestamp 89 is
stale. -/
theorem C6_freshness_boundary_witness :
    11 ≤ 100 ∧
    (WorktreeCache.is_fresh ⟨100 - CACHE_TTL_SECS + 1, "/r", []⟩ 100 = true ∧
      WorktreeCache.is_fresh ⟨100 - CACHE_TTL_SECS - 1, "/r", []⟩ 100 = false ∧
      ∀ ts, WorktreeCache.is_fresh ⟨ts, "/r", []⟩ 100 = decide (100 - ts < 10)) :=
  ⟨by decide, C6_freshness_boundary 100 "/r" [] (by decide)⟩

/-! ## Claim C7 -/

/-- Claim C7: saving an envelope and loading its repo root returns the same
envelope (worktrees content included); loading returns none when no cache
directory exists, when the slot is missing, when the file does not parse, or
when the stored repo root differs from the requested one; in particular,
after saving into a previously empty cache, loading any other root returns
none (whether or not its hash collides with the saved root's). -/
theorem C7_cache_round_trip (hash : String → Nat) (fs : FsState) (c : WorktreeCache)
    (fs1 : FsState) (hsave : save_cache hash fs c = .ok fs1) :
    load_cache hash fs1 c.repo_root = some c ∧
    (∀ root, root ≠ c.repo_root → (∀ k, fs.files k = .missing) →
      load_cache hash fs1 root = none) ∧
    (∀ (fs2 : FsState) (root : String), fs2.has_cache_dir = false →
      load_cache hash fs2 root = none) ∧
    (∀ (fs2 : FsState) (root : String), fs2.files (hash root) = .missing →
      load_cache hash fs2 root = none) ∧
    (∀ (fs2 : FsState) (root : String), fs2.files (hash root) = .garbage →
      load_cache hash fs2 root = none) ∧
    (∀ (fs2 : FsState) (root : String) (c2 : WorktreeCache),
      fs2.files (hash root) = .stored c2 → c2.repo_root ≠ root →
      load_cache hash fs2 root = none) := by
  unfold save_cache at hsave
  split at hsave
  case isFalse => simp at hsave
  case isTrue hdir =>
    simp only [Except.ok.injEq] at hsave
    subst hsave
    refine ⟨?_, ?_, ?_, ?_, ?_, ?_⟩
    · simp [load_cache, hdir]
    · intro root hne hempty
      simp only [load_cache, hdir, if_true]
      by_cases hcoll : hash root = hash c.repo_root
      · simp only [hcoll, if_pos rfl]
        simp [hne]
        intro habs
        exact absurd habs.symm hne
      · simp only [if_neg hcoll, hempty]
    · intro fs2 root hno
      simp [load_cache, hno]
    · intro fs2 root hmiss
      unfold load_cache
      split
      · rw [hmiss]
      · rfl
    · intro fs2 root hgarb
      unfold load_cache
      split
      · rw [hgarb]
      · rfl
    · intro fs2 root c2 hstored hne
      unfold load_cache
      split
      · rw [hstored]
        simp [hne]
      · rfl

/-- A degenerate hash under which every root collides. -/
def c7_hash : String → Nat := fun _ => 0

/-- An available, empty cache directory. -/
def c7_fs : FsState := ⟨true, fun _ => .missing⟩

/-- A concrete envelope to save. -/
def c7_env : WorktreeCache := ⟨5, "/r", [c4_cached]⟩

/-- The cache state after saving c7_env into the empty cache. -/
def c7_fs1 : FsState := ⟨true, fun k => if k = 0 then .stored c7_env else .missing⟩

/-- Witness for C7: the round trip returns the saved envelope and loading a
different root returns none even though its hash collides. -/
theorem C7_cache_round_trip_witness :
    save_cache c7_hash c7_fs c7_env = .ok c7_fs1 ∧
    load_cache c7_hash c7_fs1 "/r" = some c7_env ∧
    load_cache c7_hash c7_fs1 "/other" = none :=
  ⟨rfl, (C7_cache_round_trip c7_hash c7_fs c7_env c7_fs1 rfl).1,
    (C7_cache_round_trip c7_hash c7_fs c7_env c7_fs1 rfl).2.1 "/other" (by decide)
      fun _ => rfl⟩

/-! ## Claim C8 -/

/-- Claim C8 as stated: after a query change the filtered set is exactly the
case-insensitive substring matches, and whenever the previously selected
record falls outside the new filtered set the selection resets to the first
filtered entry or to none. -/
def claimC8 : Prop :=
  ∀ s : AppState,
    (∀ i, i ∈ (update_search_filter s).filtered_indices ↔
      ∃ w, s.worktrees[i]? = some w ∧
        wtMatchesLower (lowerChars s.search_query) w = true) ∧
    (∀ p idx, s.selected = some p → s.filtered_indices[p]? = some idx →
      idx ∉ (update_search_filter s).filtered_indices →
      (update_search_filter s).selected =
        if (update_search_filter s).filtered_indices.isEmpty then none else some 0)

/-- The three worktrees of the C8 scenario. -/
def c8_wts : List Worktree :=
  [mkWt "/r/1" (some "main") none true, mkWt "/r/2" (some "feature-x") none false,
   mkWt "/r/3" (some "bugfix-y") none false]

/-- The C8 state: query i, position 1 (feature-x) selected against the
previous unfiltered index list. -/
def c8_state : AppState := ⟨c8_wts, some 1, "i", [0, 1, 2], .recent⟩

/-- Counterexample to claim C8 as stated: the query i matches main and
bugfix-y but not the selected feature-x; the new filtered set is [0, 2], the
old position 1 is below its length 2, so the code keeps position 1 — now the
bugfix-y record — instead of resetting to the first filtered entry. -/
theorem C8_reset_on_exclusion_counterexample : ¬claimC8 := by
  intro h
  have h2 := (h c8_state).2 1 1 (by decide) (by decide) (by decide)
  exact absurd h2 (by decide)

/-- Claim C8 (amended): the filtered set is exactly the case-insensitive
substring matches of path, branch name (when present) and commit summary,
recomputed from the whole collection; the selection resets to the first
filtered entry (or none when the filtered set is empty) exactly when the old
selected position is at or past the new filtered length, and is otherwise
kept as a position even when that position now denotes a different record. -/
theorem C8_filter_exact_and_positional_reset (s : AppState) :
    (∀ i, i ∈ (update_search_filter s).filtered_indices ↔
      ∃ w, s.worktrees[i]? = some w ∧
        wtMatchesLower (lowerChars s.search_query) w = true) ∧
    (update_search_filter s).selected =
      (if s.selected.getD 0 ≥ (update_search_filter s).filtered_indices.length then
        (if (update_search_filter s).filtered_indices.isEmpty then none else some 0)
      else s.selected) := by
  constructor
  · intro i
    exact mem_filtered_iff s.worktrees (wtMatchesLower (lowerChars s.search_query)) i
  · rfl

/-! ## Claim C9 -/

/-- Claim C9 as stated: in both refresh paths the detail fetch is attempted
exactly for the non-bare, non-prunable worktrees, and consequently bare and
prunable records retain default status and empty recent commits. -/
def claimC9 : Prop :=
  (∀ wts : List Worktree,
    fetch_detail_targets wts = wts.filter fun w => !w.is_bare && !w.is_prunable) ∧
  (∀ wts : List Worktree,
    refresh_detail_targets wts = wts.filter fun w => !w.is_bare && !w.is_prunable) ∧
  (∀ (repoBare : Bool) (cur : String) (mainInfo : WtInfo) (linked : List WtInfo)
      (env : Nat → DetailEnv),
    ∀ w ∈ fetch_all_worktrees_model repoBare cur mainInfo linked env,
      w.is_bare = true ∨ w.is_prunable = true →
      w.status = default ∧ w.recent_commits = [])

/-- A non-bare worktree whose path no longer exists on disk. -/
def c9_prunable : Worktree := { mkWt "/w/gone" (some "gone") none false with is_prunable := true }

/-- Counterexample to claim C9 as stated: the synchronous refresh guards its
detail loop only on is_bare, so it attempts the detail fetch for a non-bare
prunable worktree the claim says is skipped. -/
theorem C9_sync_skip_counterexample : ¬claimC9 := by
  intro h
  exact absurd (h.2.1 [c9_prunable]) (by decide)

/-- Claim C9 (amended): the background parallel fetch skips exactly the bare
or prunable worktrees and leaves their records with default status, empty
commit fields and an empty recent-commits list; the synchronous refresh skips
only bare worktrees (leaving them untouched) and attempts the fetch even for
prunable ones, where a failing repository open aborts the whole refresh
instead of being skipped. -/
theorem C9_detail_fetch_skip_sets :
    (∀ wts : List Worktree,
      fetch_detail_targets wts = wts.filter fun w => !w.is_bare && !w.is_prunable) ∧
    (∀ wts : List Worktree,
      refresh_detail_targets wts = wts.filter fun w => !w.is_bare) ∧
    (∀ (repoBare : Bool) (cur : String) (mainInfo : WtInfo) (linked : List WtInfo)
        (env : Nat → DetailEnv),
      ∀ w ∈ fetch_all_worktrees_model repoBare cur mainInfo linked env,
        w.is_bare = true ∨ w.is_prunable = true →
        w.status = default ∧ w.commit_message = "" ∧ w.commit_time = none ∧
          w.recent_commits = []) ∧
    (∀ (w : Worktree) (e : DetailEnv), w.is_bare = true →
      refresh_detail_one w e = .ok w) ∧
    (∀ (w : Worktree) (e : DetailEnv), w.is_bare = false → e.open_ok = false →
      refresh_detail_one w e = .error "Failed to open worktree repo") := by
  refine ⟨?_, fun wts => rfl, ?_, ?_, ?_⟩
  · intro wts
    unfold fetch_detail_targets
    simp [Bool.not_or]
  · intro repoBare cur mainInfo linked env w hw hflag
    exact fetch_details_go_defaults env _
      (base_worktrees_defaults repoBare cur mainInfo linked) 0 w hw hflag
  · intro w e hb
    simp [refresh_detail_one, hb]
  · intro w e hb ho
    simp [refresh_detail_one, hb, ho]

/-- A bare main worktree for the C9 witness. -/
def c9_bare : Worktree := { mkWt "/repo" (some "main") none true with is_bare := true }

/-- Witness for C9: a bare worktree passes through the synchronous detail
loop untouched, while a non-bare one whose repository open fails aborts it. -/
theorem C9_detail_fetch_skip_sets_witness :
    refresh_detail_targets [c9_prunable] = [c9_prunable] ∧
    c9_bare.is_bare = true ∧
    refresh_detail_one c9_bare ⟨false, none, none, none⟩ = .ok c9_bare ∧
    c9_prunable.is_bare = false ∧
    refresh_detail_one c9_prunable ⟨false, none, none, none⟩ =
      .error "Failed to open worktree repo" :=
  ⟨by decide, by decide,
    C9_detail_fetch_skip_sets.2.2.2.1 c9_bare ⟨false, none, none, none⟩ (by decide),
    by decide,
    C9_detail_fetch_skip_sets.2.2.2.2 c9_prunable ⟨false, none, none, none⟩ (by decide)
      (by decide)⟩

/-! ## Claim C10 -/

/-- Claim C10: after initialization and after every operation that rebuilds
the collection or the filter (cache load, synchronous refresh, background
result application, search update, sort cycling), every filtered index is a
valid index into the collection, the indices are distinct, and indexing the
collection by a filtered index always yields a record, so the two-level
lookup of selected_worktree and the direct indexing during list rendering
never go out of bounds. -/
theorem C10_filtered_indices_invariant :
    (∀ (cached : List CachedWorktree) (root cur : String),
      invFI (init_from_cache cached root cur)) ∧
    (∀ (s : AppState) (new_wts : List Worktree), invFI (applyBackgroundResult s new_wts)) ∧
    (∀ s : AppState, invFI (update_search_filter s)) ∧
    (∀ s : AppState, invFI (cycle_sort s)) ∧
    (∀ (s : AppState) (out : List Worktree), invFI (apply_refresh_result s out)) := by
  refine ⟨?_, ?_, invFI_update_search_filter, ?_, ?_⟩
  · intro cached root cur
    unfold init_from_cache
    dsimp only
    split
    · exact ⟨fun i hi => by simp at hi, List.nodup_nil, fun i hi => by simp at hi⟩
    · exact invFI_of_range rfl
  · intro s new_wts
    exact invFI_of_range rfl
  · intro s
    unfold cycle_sort
    dsimp only
    split
    · exact invFI_update_search_filter _
    · split
      · split
        · split
          · exact invFI_of_range rfl
          · exact invFI_of_range rfl
        · exact invFI_of_range rfl
      · exact invFI_of_range rfl
  · intro s out
    unfold apply_refresh_result
    dsimp only
    split
    · exact invFI_update_search_filter _
    · exact invFI_of_range rfl

end WorktreeTui
